import Mathlib

/-!
# Verification of the templ dev-proxy (`cmd/templ/generatecmd/proxy/proxy.go`)

A shallow embedding of the proxy package: the script-tag rewriter
(`insertScriptTagIntoBody`, `updatePlainResponse`, `updateGzipResponse`,
`modifyResponse`), the retrying transport (`roundTripper.RoundTrip`,
`setShouldSkipResponseModificationHeader`) and `NotifyProxy`.

Go byte strings are modelled as `List Char` (every byte of interest here is
ASCII), HTTP headers as association lists of `String` pairs (Go's
`http.Header.Get`/`Set` canonicalise keys the same way on both sides, so
matching on the literal key is faithful), and the external collaborators
(the gzip codec and the real network transport) as explicit function
parameters, i.e. oracles.
-/

namespace TemplProxy

/-- Boolean test that `t` is a prefix of `s`, models Go's
`strings.HasPrefix` / the prefix test done by `strings.Replace` at each
position. -/
def isPrefixList : List Char → List Char → Bool
  | [], _ => true
  | _ :: _, [] => false
  | a :: as, b :: bs => a == b && isPrefixList as bs

/-- `t` occurs as a contiguous substring of `s` (models `strings.Contains`,
used only on the specification side to describe decompositions). -/
def occursIn (t : List Char) : List Char → Bool
  | [] => isPrefixList t []
  | c :: rest => isPrefixList t (c :: rest) || occursIn t rest

/-- Fuel-indexed worker for `stringsReplaceAll`.  Each recursive call
consumes at least one character of `s`, so `fuel = s.length` is always
enough; the fuel only makes the recursion structural. -/
def replaceAllFuel (old nw : List Char) : Nat → List Char → List Char
  | 0, s => s
  | fuel + 1, s =>
    match s with
    | [] => []
    | c :: rest =>
      if old ≠ [] ∧ isPrefixList old (c :: rest) = true then
        nw ++ replaceAllFuel old nw fuel (rest.drop (old.length - 1))
      else
        c :: replaceAllFuel old nw fuel rest

/-- Go's `strings.Replace(s, old, nw, -1)` for nonempty `old`: scan left to
right, replacing each (non-overlapping) occurrence of `old` by `nw`. -/
def stringsReplaceAll (old nw s : List Char) : List Char :=
  replaceAllFuel old nw s.length s

/-- The closing body tag `</body>` searched for by
`insertScriptTagIntoBody`. -/
def closingBodyTag : List Char := "</body>".toList

/-- The constant `scriptTag` from proxy.go:
`<script src="/_templ/reload/script.js"></script>`. -/
def scriptTag : List Char := "<script src=\"/_templ/reload/script.js\"></script>".toList

/-- `insertScriptTagIntoBody` from proxy.go:
`strings.Replace(body, "</body>", scriptTag+"</body>", -1)`. -/
def insertScriptTagIntoBody (body : List Char) : List Char :=
  stringsReplaceAll closingBodyTag (scriptTag ++ closingBodyTag) body

/-- Specification-side helper: interleave the separator `sep` between the
given parts (so `joinWith sep [p, q] = p ++ sep ++ q`).  A body written as
`joinWith closingBodyTag parts` with tag-free parts exhibits every
occurrence of the closing tag explicitly. -/
def joinWith (sep : List Char) : List (List Char) → List Char
  | [] => []
  | [p] => p
  | p :: q :: rest => p ++ sep ++ joinWith sep (q :: rest)

/-- `t` has no nontrivial border: no proper nonempty suffix of `t` is also
a prefix of `t`.  This is what makes occurrences of `t` unable to straddle
a part/separator boundary. -/
def borderFree (t : List Char) : Prop :=
  ∀ k, k < t.length → 0 < k → t.drop (t.length - k) ≠ t.take k

lemma replaceAllFuel_nil (old nw : List Char) (fuel : Nat) :
    replaceAllFuel old nw fuel [] = [] := by
  cases fuel <;> rfl

lemma replaceAllFuel_congr (old nw : List Char) :
    ∀ fuel₁ fuel₂ s, s.length ≤ fuel₁ → s.length ≤ fuel₂ →
      replaceAllFuel old nw fuel₁ s = replaceAllFuel old nw fuel₂ s := by
  intro fuel₁
  induction fuel₁ with
  | zero =>
    intro fuel₂ s h1 _
    have hs : s = [] := List.eq_nil_of_length_eq_zero (Nat.le_zero.mp h1)
    subst hs
    simp [replaceAllFuel_nil]
  | succ f ih =>
    intro fuel₂ s h1 h2
    match s with
    | [] => simp [replaceAllFuel_nil]
    | c :: rest =>
      match fuel₂ with
      | 0 => exact absurd h2 (by simp)
      | f2 + 1 =>
        simp only [replaceAllFuel]
        by_cases h : old ≠ [] ∧ isPrefixList old (c :: rest) = true
        · rw [if_pos h, if_pos h]
          have hlen : (rest.drop (old.length - 1)).length ≤ rest.length := by
            simp only [List.length_drop]
            omega
          have h1' : rest.length ≤ f := by simpa using Nat.succ_le_succ_iff.mp h1
          have h2' : rest.length ≤ f2 := by simpa using Nat.succ_le_succ_iff.mp h2
          rw [ih f2 (rest.drop (old.length - 1)) (le_trans hlen h1') (le_trans hlen h2')]
        · rw [if_neg h, if_neg h]
          have h1' : rest.length ≤ f := by simpa using Nat.succ_le_succ_iff.mp h1
          have h2' : rest.length ≤ f2 := by simpa using Nat.succ_le_succ_iff.mp h2
          rw [ih f2 rest h1' h2']

lemma stringsReplaceAll_nil (old nw : List Char) :
    stringsReplaceAll old nw [] = [] := rfl

lemma stringsReplaceAll_cons_pos (old nw : List Char) (c : Char) (rest : List Char)
    (h1 : old ≠ []) (h2 : isPrefixList old (c :: rest) = true) :
    stringsReplaceAll old nw (c :: rest) =
      nw ++ stringsReplaceAll old nw (rest.drop (old.length - 1)) := by
  show replaceAllFuel old nw (rest.length + 1) (c :: rest) = _
  simp only [replaceAllFuel]
  rw [if_pos ⟨h1, h2⟩]
  congr 1
  exact replaceAllFuel_congr old nw rest.length (rest.drop (old.length - 1)).length
    (rest.drop (old.length - 1)) (by simp only [List.length_drop]; omega) le_rfl

lemma stringsReplaceAll_cons_neg (old nw : List Char) (c : Char) (rest : List Char)
    (h : ¬(old ≠ [] ∧ isPrefixList old (c :: rest) = true)) :
    stringsReplaceAll old nw (c :: rest) = c :: stringsReplaceAll old nw rest := by
  show replaceAllFuel old nw (rest.length + 1) (c :: rest) = _
  simp only [replaceAllFuel]
  rw [if_neg h]
  rfl

lemma stringsReplaceAll_of_not_occurs (old nw : List Char) :
    ∀ s, occursIn old s = false → stringsReplaceAll old nw s = s := by
  intro s
  induction s with
  | nil => intro _; rfl
  | cons c rest ih =>
    intro h
    have h' : isPrefixList old (c :: rest) = false ∧ occursIn old rest = false := by
      simpa [occursIn] using h
    rw [stringsReplaceAll_cons_neg old nw c rest (by simp [h'.1]), ih h'.2]

lemma isPrefixList_append_self (t u : List Char) : isPrefixList t (t ++ u) = true := by
  induction t with
  | nil => rfl
  | cons a as ih => simp [isPrefixList, ih]

lemma isPrefixList_eq_take (t : List Char) :
    ∀ s, isPrefixList t s = true ↔ s.take t.length = t := by
  induction t with
  | nil => intro s; simp [isPrefixList]
  | cons a as ih =>
    intro s
    cases s with
    | nil => simp [isPrefixList]
    | cons b bs =>
      simp only [isPrefixList, Bool.and_eq_true, beq_iff_eq, List.length_cons,
        List.take_succ_cons, List.cons.injEq, ih bs]
      tauto

lemma isPrefixList_append_left (t a b : List Char) (hlen : t.length ≤ a.length)
    (h : isPrefixList t (a ++ b) = true) : isPrefixList t a = true := by
  rw [isPrefixList_eq_take] at h ⊢
  rwa [List.take_append_of_le_length hlen] at h

lemma occursIn_of_isPrefixList (t s : List Char) (h : isPrefixList t s = true) :
    occursIn t s = true := by
  cases s with
  | nil => exact h
  | cons c rest => simp [occursIn, h]

lemma stringsReplaceAll_part_tag (tag nw : List Char) (hne : tag ≠ [])
    (hbf : borderFree tag) :
    ∀ p rest, occursIn tag p = false →
      stringsReplaceAll tag nw (p ++ tag ++ rest) =
        p ++ nw ++ stringsReplaceAll tag nw rest := by
  intro p
  induction p with
  | nil =>
    intro rest _
    cases htag : tag with
    | nil => exact absurd htag hne
    | cons t0 ttail =>
      simp only [List.nil_append]
      rw [show (t0 :: ttail) ++ rest = t0 :: (ttail ++ rest) from rfl]
      rw [stringsReplaceAll_cons_pos _ nw t0 (ttail ++ rest) (by simp)
        (isPrefixList_append_self (t0 :: ttail) rest)]
      simp only [List.length_cons, Nat.add_sub_cancel]
      rw [List.drop_left]
  | cons c p' ih =>
    intro rest hocc
    have hocc' : isPrefixList tag (c :: p') = false ∧ occursIn tag p' = false := by
      simpa [occursIn] using hocc
    have hsplit : (c :: p') ++ tag ++ rest = c :: (p' ++ tag ++ rest) := by simp
    have hpre : isPrefixList tag (c :: (p' ++ tag ++ rest)) = false := by
      cases hcase : isPrefixList tag (c :: (p' ++ tag ++ rest)) with
      | false => rfl
      | true =>
        exfalso
        rcases le_or_lt tag.length (c :: p').length with hnm | hmn
        · have hpfx : isPrefixList tag (c :: p') = true := by
            apply isPrefixList_append_left tag (c :: p') (tag ++ rest) hnm
            rw [show (c :: p') ++ (tag ++ rest) = c :: (p' ++ tag ++ rest) by simp]
            exact hcase
          rw [hocc'.1] at hpfx
          exact Bool.false_ne_true hpfx
        · have htake := (isPrefixList_eq_take tag _).mp hcase
          rw [show c :: (p' ++ tag ++ rest) = (c :: p') ++ (tag ++ rest) by simp] at htake
          rw [List.take_append_eq_append_take,
            List.take_of_length_le (le_of_lt hmn),
            List.take_append_of_le_length (by omega)] at htake
          have hdrop : tag.drop (c :: p').length = tag.take (tag.length - (c :: p').length) := by
            conv_lhs => rw [← htake]
            rw [List.drop_left]
          apply hbf (tag.length - (c :: p').length) (by simp; omega) (by omega)
          rw [show tag.length - (tag.length - (c :: p').length) = (c :: p').length by omega]
          exact hdrop
    have hneg : ¬(tag ≠ [] ∧ isPrefixList tag (c :: (p' ++ tag ++ rest)) = true) := by
      intro hand
      rw [hand.2] at hpre
      exact absurd hpre (by decide)
    rw [hsplit, stringsReplaceAll_cons_neg tag nw c _ hneg, ih rest hocc'.2]
    simp

/-- The central replacement lemma: on a body exhibited as tag-free parts
joined by the tag, replacing every tag occurrence by `nw` yields the same
parts joined by `nw`. -/
lemma stringsReplaceAll_joinWith (tag nw : List Char) (hne : tag ≠ [])
    (hbf : borderFree tag) :
    ∀ parts, (∀ p ∈ parts, occursIn tag p = false) →
      stringsReplaceAll tag nw (joinWith tag parts) = joinWith nw parts := by
  intro parts
  induction parts with
  | nil => intro _; rfl
  | cons p ps ih =>
    intro hp
    cases ps with
    | nil =>
      exact stringsReplaceAll_of_not_occurs tag nw p (hp p (by simp))
    | cons q rest =>
      show stringsReplaceAll tag nw (p ++ tag ++ joinWith tag (q :: rest)) = _
      rw [stringsReplaceAll_part_tag tag nw hne hbf p _ (hp p (by simp))]
      rw [ih (fun x hx => hp x (by simp [hx]))]
      rfl

lemma closingBodyTag_ne_nil : closingBodyTag ≠ [] := by decide

lemma closingBodyTag_borderFree : borderFree closingBodyTag := by
  unfold borderFree
  decide

example : insertScriptTagIntoBody "a</body>".toList =
    ("a" ++ "<script src=\"/_templ/reload/script.js\"></script>" ++ "</body>").toList := by
  decide

/-! ## HTTP model

Headers are association lists of `(key, value)` `String` pairs.  Go's
`http.Header.Get` returns the first value stored for the key (or `""`);
`Set` replaces the stored value.  Both canonicalise the key the same way,
so matching on the literal key used in the source is faithful. -/

/-- `http.Header.Get`: first value for the key, `""` when absent. -/
def headerGet (hs : List (String × String)) (k : String) : String :=
  match hs with
  | [] => ""
  | (k', v) :: rest => if k' = k then v else headerGet rest k

/-- `http.Header.Set`: replace the value stored for the key (append the
pair when the key is absent). -/
def headerSet (hs : List (String × String)) (k v : String) : List (String × String) :=
  match hs with
  | [] => [(k, v)]
  | (k', v') :: rest => if k' = k then (k, v) :: rest else (k', v') :: headerSet rest k v

/-- Go's `strings.HasPrefix` on `String`s. -/
def strStartsWith (pre s : String) : Bool :=
  isPrefixList pre.toList s.toList

/-- `*http.Response` as the proxy observes it: status code, headers, the
body bytes, and the `ContentLength` field (Go `int64`). -/
structure Response where
  status : Nat
  headers : List (String × String)
  body : List Char
  contentLength : Int
  deriving DecidableEq

/-- `*http.Request` as the proxy observes it: headers and an optional body
(`none` models a `nil` body or `http.NoBody`). -/
structure Request where
  headers : List (String × String)
  body : Option (List Char)
  deriving DecidableEq

/-- The gzip codec as an oracle pair.  `GzipDec` models
`gzip.NewReader` + `io.ReadAll` (fails on corrupt input), `GzipComp`
models `gzip.Writer.Write` + `Close` into a `bytes.Buffer`. -/
abbrev GzipDec := List Char → Except String (List Char)

/-- See `GzipDec`. -/
abbrev GzipComp := List Char → Except String (List Char)

/-- `updatePlainResponse` from proxy.go: insert the script tag into the raw
body, then set `Body`, `ContentLength` and the `Content-Length` header.
The result pairs the (mutated-in-place in Go) response with the returned
error; reading the in-memory body cannot fail, so the error is `none`. -/
def updatePlainResponse (r : Response) : Response × Option String :=
  let updated := insertScriptTagIntoBody r.body
  ({ r with
      body := updated
      contentLength := Int.ofNat updated.length
      headers := headerSet r.headers "Content-Length" (toString updated.length) },
    none)

/-- `updateGzipResponse` from proxy.go: decompress the body, insert the
script tag, recompress, then set `Body`, `ContentLength` and the
`Content-Length` header.  Every error return in the Go code happens before
any field of `r` is assigned, so on error the original response is
returned alongside the error. -/
def updateGzipResponse (dec : GzipDec) (comp : GzipComp) (r : Response) :
    Response × Option String :=
  match dec r.body with
  | .error e => (r, some e)
  | .ok body =>
    let updated := insertScriptTagIntoBody body
    match comp updated with
    | .error e => (r, some e)
    | .ok buf =>
      ({ r with
          body := buf
          contentLength := Int.ofNat buf.length
          headers := headerSet r.headers "Content-Length" (toString buf.length) },
        none)

/-- `modifyResponse` from proxy.go: skip when tagged `templ-skip-modify:
true`, skip non-`text/html` content types, otherwise rewrite via the gzip
path exactly when `Content-Encoding` equals `"gzip"`, and via the plain
path otherwise. -/
def modifyResponse (dec : GzipDec) (comp : GzipComp) (r : Response) :
    Response × Option String :=
  if headerGet r.headers "templ-skip-modify" = "true" then (r, none)
  else if strStartsWith "text/html" (headerGet r.headers "Content-Type") = false then (r, none)
  else if headerGet r.headers "Content-Encoding" = "gzip" then updateGzipResponse dec comp r
  else updatePlainResponse r

lemma headerGet_headerSet_self (hs : List (String × String)) (k v : String) :
    headerGet (headerSet hs k v) k = v := by
  induction hs with
  | nil => simp [headerGet, headerSet]
  | cons p rest ih =>
    obtain ⟨k', v'⟩ := p
    by_cases h : k' = k
    · simp [headerGet, headerSet, h]
    · simp [headerGet, headerSet, h, ih]

/-! ## Resilient transport

`roundTripper.RoundTrip` buffers the request body, then attempts the call
up to `maxRetries` times, sleeping
`initialDelay * time.Duration(math.Pow(backoffExponent, retries))` after
each transport-level failure.  The real network transport
(`http.DefaultTransport.RoundTrip`) is an oracle mapping the attempt index
and the request sent on that attempt to a response or a transport error.

On the conversion `time.Duration(math.Pow(...))`, Go truncates the float
toward zero before multiplying by `initialDelay`.  The exponent is
modelled as an exact rational: for the configured constants (exponent 1.5,
at most 10 attempts) every power `1.5^k` is exactly representable as a
`float64`, so the model agrees bit-for-bit with the Go arithmetic. -/

/-- The `roundTripper` configuration: `maxRetries`, `initialDelay` in
nanoseconds (`time.Duration`), and the backoff exponent. -/
structure RoundTripper where
  maxRetries : Nat
  initialDelayNs : Nat
  backoffExponent : ℚ
  deriving DecidableEq

/-- The configuration installed by `New`: 10 retries, 100ms initial delay,
exponent 1.5. -/
def defaultRoundTripper : RoundTripper :=
  { maxRetries := 10, initialDelayNs := 100000000, backoffExponent := 3 / 2 }

/-- Nanoseconds slept after the failed attempt with index `k`:
`initialDelay * time.Duration(math.Pow(backoffExponent, k))`.  The
float-to-`time.Duration` conversion truncates toward zero, i.e. takes the
floor for the nonnegative values that arise here. -/
def sleepNs (rt : RoundTripper) (k : Nat) : Nat :=
  rt.initialDelayNs * (⌊rt.backoffExponent ^ k⌋).toNat

/-- Total nanoseconds slept after the `len` consecutive failed attempts
`start, start+1, ..., start+len-1`. -/
def sleepRange (rt : RoundTripper) (start : Nat) : Nat → Nat
  | 0 => 0
  | len + 1 => sleepNs rt start + sleepRange rt (start + 1) len

/-- `r.Clone(ctx)` followed by `req.Body = io.NopCloser(bytes.NewReader
(bodyBytes))` when `bodyBytes != nil`.  When the original body was
`nil`/`http.NoBody` (`bb = none`) the clone keeps that absent body. -/
def cloneWithBody (r : Request) (bb : Option (List Char)) : Request :=
  { headers := r.headers
    body := match bb with
            | some bs => some bs
            | none => r.body }

/-- `setShouldSkipResponseModificationHeader` from proxy.go: when the
request came from HTMX (`HX-Request: true`), tag the response with
`templ-skip-modify: true`. -/
def setShouldSkipResponseModificationHeader (r : Request) (resp : Response) : Response :=
  if headerGet r.headers "HX-Request" ≠ "true" then resp
  else { resp with headers := headerSet resp.headers "templ-skip-modify" "true" }

/-- The network transport oracle: attempt index and the request sent on
that attempt, to either a response (any status code) or a transport-level
error. -/
abbrev Transport := Nat → Request → Except String Response

/-- Observable outcome of `RoundTrip`: the returned value, the total
nanoseconds slept, and the trace of requests handed to the network
transport, in attempt order. -/
structure RoundTripResult where
  result : Except String Response
  slept : Nat
  sent : List Request

/-- The retry loop of `RoundTrip`.  `remaining` counts the loop iterations
still allowed (`maxRetries - retries`), `retries` is the Go loop counter,
`slept` and `sent` accumulate the observable trace. -/
def roundTripAux (rt : RoundTripper) (transport : Transport) (r : Request)
    (bb : Option (List Char)) : Nat → Nat → Nat → List Request → RoundTripResult
  | 0, _, slept, sent => ⟨.error "max retries reached", slept, sent⟩
  | remaining + 1, retries, slept, sent =>
    let req := cloneWithBody r bb
    match transport retries req with
    | .error _ =>
      roundTripAux rt transport r bb remaining (retries + 1)
        (slept + sleepNs rt retries) (sent ++ [req])
    | .ok resp =>
      ⟨.ok (setShouldSkipResponseModificationHeader r resp), slept, sent ++ [req]⟩

/-- `roundTripper.RoundTrip` from proxy.go: buffer the body bytes once
(`bb = r.body`), then run the retry loop. -/
def RoundTrip (rt : RoundTripper) (transport : Transport) (r : Request) : RoundTripResult :=
  roundTripAux rt transport r r.body rt.maxRetries 0 0 []

/-- `NotifyProxy` from proxy.go: build a POST to
`http://host:port/_templ/reload/events` and execute it, discarding the
response.  `newRequest` models `http.NewRequest` (fails only on request
construction), `doRequest` models `http.DefaultClient.Do` (fails only on
the network exchange); the returned response, in particular its status
code, is never inspected. -/
def NotifyProxy (host : String) (port : Int)
    (newRequest : String → Except String Request)
    (doRequest : Request → Except String Response) : Option String :=
  match newRequest ("http://" ++ host ++ ":" ++ toString port ++ "/_templ/reload/events") with
  | .error e => some e
  | .ok req =>
    match doRequest req with
    | .error e => some e
    | .ok _ => none

/-! ### Loop lemmas for the retry transport -/

lemma roundTripAux_run_ok (rt : RoundTripper) (transport : Transport) (r : Request)
    (bb : Option (List Char)) (resp : Response) :
    ∀ (m remaining retries slept : Nat) (sent : List Request),
      m < remaining →
      (∀ k, k < m → ∃ e, transport (retries + k) (cloneWithBody r bb) = .error e) →
      transport (retries + m) (cloneWithBody r bb) = .ok resp →
      roundTripAux rt transport r bb remaining retries slept sent =
        ⟨.ok (setShouldSkipResponseModificationHeader r resp),
         slept + sleepRange rt retries m,
         sent ++ List.replicate (m + 1) (cloneWithBody r bb)⟩ := by
  intro m
  induction m with
  | zero =>
    intro remaining retries slept sent hlt _ hsucc
    match remaining, hlt with
    | rem + 1, _ =>
      rw [Nat.add_zero] at hsucc
      simp [roundTripAux, hsucc, sleepRange]
  | succ m ih =>
    intro remaining retries slept sent hlt hfail hsucc
    match remaining, hlt with
    | rem + 1, hlt =>
      obtain ⟨e0, he0⟩ := hfail 0 (Nat.zero_lt_succ m)
      rw [Nat.add_zero] at he0
      have hstep : roundTripAux rt transport r bb (rem + 1) retries slept sent =
          roundTripAux rt transport r bb rem (retries + 1)
            (slept + sleepNs rt retries) (sent ++ [cloneWithBody r bb]) := by
        simp [roundTripAux, he0]
      rw [hstep]
      have hfail' : ∀ k, k < m →
          ∃ e, transport (retries + 1 + k) (cloneWithBody r bb) = .error e := by
        intro k hk
        have := hfail (k + 1) (Nat.succ_lt_succ hk)
        rwa [show retries + (k + 1) = retries + 1 + k by omega] at this
      have hsucc' : transport (retries + 1 + m) (cloneWithBody r bb) = .ok resp := by
        rwa [show retries + 1 + m = retries + (m + 1) by omega]
      rw [ih rem (retries + 1) (slept + sleepNs rt retries)
        (sent ++ [cloneWithBody r bb]) (Nat.lt_of_succ_lt_succ hlt) hfail' hsucc']
      simp [sleepRange, List.replicate_succ, Nat.add_assoc]

lemma roundTripAux_all_fail (rt : RoundTripper) (transport : Transport) (r : Request)
    (bb : Option (List Char))
    (hfail : ∀ k req, ∃ e, transport k req = .error e) :
    ∀ (remaining retries slept : Nat) (sent : List Request),
      roundTripAux rt transport r bb remaining retries slept sent =
        ⟨.error "max retries reached",
         slept + sleepRange rt retries remaining,
         sent ++ List.replicate remaining (cloneWithBody r bb)⟩ := by
  intro remaining
  induction remaining with
  | zero => intro retries slept sent; simp [roundTripAux, sleepRange]
  | succ rem ih =>
    intro retries slept sent
    obtain ⟨e0, he0⟩ := hfail retries (cloneWithBody r bb)
    have hstep : roundTripAux rt transport r bb (rem + 1) retries slept sent =
        roundTripAux rt transport r bb rem (retries + 1)
          (slept + sleepNs rt retries) (sent ++ [cloneWithBody r bb]) := by
      simp [roundTripAux, he0]
    rw [hstep, ih]
    simp [sleepRange, List.replicate_succ, Nat.add_assoc]

lemma roundTripAux_sent_mem (rt : RoundTripper) (transport : Transport) (r : Request)
    (bb : Option (List Char)) :
    ∀ (remaining retries slept : Nat) (sent : List Request) (q : Request),
      q ∈ (roundTripAux rt transport r bb remaining retries slept sent).sent →
      q ∈ sent ∨ q = cloneWithBody r bb := by
  intro remaining
  induction remaining with
  | zero => intro retries slept sent q hq; exact Or.inl hq
  | succ rem ih =>
    intro retries slept sent q hq
    simp only [roundTripAux] at hq
    cases htr : transport retries (cloneWithBody r bb) with
    | error e =>
      rw [htr] at hq
      rcases ih (retries + 1) (slept + sleepNs rt retries) (sent ++ [cloneWithBody r bb]) q hq
        with hmem | heq
      · rcases List.mem_append.mp hmem with h | h
        · exact Or.inl h
        · exact Or.inr (List.mem_singleton.mp h)
      · exact Or.inr heq
    | ok resp =>
      rw [htr] at hq
      simp only at hq
      rcases List.mem_append.mp hq with h | h
      · exact Or.inl h
      · exact Or.inr (List.mem_singleton.mp h)

lemma roundTripAux_ok_shape (rt : RoundTripper) (transport : Transport) (r : Request)
    (bb : Option (List Char)) :
    ∀ (remaining retries slept : Nat) (sent : List Request) (resp' : Response),
      (roundTripAux rt transport r bb remaining retries slept sent).result = .ok resp' →
      ∃ k resp, transport k (cloneWithBody r bb) = .ok resp ∧
        resp' = setShouldSkipResponseModificationHeader r resp := by
  intro remaining
  induction remaining with
  | zero => intro retries slept sent resp' h; exact absurd h (by simp [roundTripAux])
  | succ rem ih =>
    intro retries slept sent resp' h
    simp only [roundTripAux] at h
    cases htr : transport retries (cloneWithBody r bb) with
    | error e =>
      rw [htr] at h
      exact ih (retries + 1) (slept + sleepNs rt retries) (sent ++ [cloneWithBody r bb]) resp' h
    | ok resp =>
      rw [htr] at h
      simp only [Except.ok.injEq] at h
      exact ⟨retries, resp, htr, h.symm⟩

lemma cloneWithBody_self_body (r : Request) : (cloneWithBody r r.body).body = r.body := by
  cases hb : r.body <;> simp [cloneWithBody, hb]

/-! ## Claim theorems -/

/-- **C1.** For every HTML body containing one or more occurrences of the
closing body tag — exhibited as at least two tag-free parts joined by the
tag — the plain rewrite replaces the body by the same parts joined by the
script markup immediately followed by the closing tag: the markup is
inserted exactly once before each occurrence, every other byte is
preserved, and both the `Content-Length` header and the `ContentLength`
field are set to the byte length of the new body. -/
theorem updatePlainResponse_inserts_before_each_closing_tag
    (r : Response) (parts : List (List Char))
    (_hparts : 2 ≤ parts.length)
    (hfree : ∀ p ∈ parts, occursIn closingBodyTag p = false)
    (hbody : r.body = joinWith closingBodyTag parts) :
    updatePlainResponse r =
      ({ r with
          body := joinWith (scriptTag ++ closingBodyTag) parts
          contentLength := Int.ofNat (joinWith (scriptTag ++ closingBodyTag) parts).length
          headers := headerSet r.headers "Content-Length"
            (toString (joinWith (scriptTag ++ closingBodyTag) parts).length) },
        none) := by
  have hrepl : insertScriptTagIntoBody r.body =
      joinWith (scriptTag ++ closingBodyTag) parts := by
    rw [hbody]
    exact stringsReplaceAll_joinWith closingBodyTag (scriptTag ++ closingBodyTag)
      closingBodyTag_ne_nil closingBodyTag_borderFree parts hfree
  simp [updatePlainResponse, hrepl]

/-- Witness for C1 at the two-occurrence body `"a</body>b</body>"`. -/
theorem updatePlainResponse_inserts_before_each_closing_tag_witness :
    updatePlainResponse
        { status := 200, headers := [("Content-Type", "text/html")],
          body := "a</body>b</body>".toList, contentLength := 16 } =
      ({ status := 200,
          headers := headerSet [("Content-Type", "text/html")] "Content-Length"
            (toString (joinWith (scriptTag ++ closingBodyTag) [['a'], ['b'], []]).length),
          body := joinWith (scriptTag ++ closingBodyTag) [['a'], ['b'], []],
          contentLength :=
            Int.ofNat (joinWith (scriptTag ++ closingBodyTag) [['a'], ['b'], []]).length },
        none) :=
  updatePlainResponse_inserts_before_each_closing_tag _ [['a'], ['b'], []]
    (by decide) (by decide) (by decide)

/-- **C4.** Rewriting a gzip-encoded body then decompressing the new body
gives exactly the plain script-tag insertion applied to the decompressed
original body.  The gzip codec is an oracle pair satisfying the stdlib
contract that decompression inverts compression. -/
theorem updateGzipResponse_decompresses_to_plain_insert
    (dec : GzipDec) (comp : GzipComp) (r : Response) (plain buf : List Char)
    (hinv : ∀ x y, comp x = .ok y → dec y = .ok x)
    (hdec : dec r.body = .ok plain)
    (hcomp : comp (insertScriptTagIntoBody plain) = .ok buf) :
    updateGzipResponse dec comp r =
      ({ r with
          body := buf
          contentLength := Int.ofNat buf.length
          headers := headerSet r.headers "Content-Length" (toString buf.length) },
        none) ∧
      dec buf = .ok (insertScriptTagIntoBody plain) := by
  constructor
  · unfold updateGzipResponse
    rw [hdec]
    simp only
    rw [hcomp]
  · exact hinv _ _ hcomp

/-- Witness for C4 with the identity codec on body `"a</body>"`. -/
theorem updateGzipResponse_decompresses_to_plain_insert_witness :
    (updateGzipResponse (fun x => Except.ok x) (fun x => Except.ok x)
        { status := 200,
          headers := [("Content-Type", "text/html"), ("Content-Encoding", "gzip")],
          body := "a</body>".toList, contentLength := 8 } =
      ({ status := 200,
          headers := headerSet
            [("Content-Type", "text/html"), ("Content-Encoding", "gzip")]
            "Content-Length" (toString (insertScriptTagIntoBody "a</body>".toList).length),
          body := insertScriptTagIntoBody "a</body>".toList,
          contentLength := Int.ofNat (insertScriptTagIntoBody "a</body>".toList).length },
        none)) ∧
      (fun x => Except.ok x : GzipDec) (insertScriptTagIntoBody "a</body>".toList) =
        Except.ok (insertScriptTagIntoBody "a</body>".toList) :=
  updateGzipResponse_decompresses_to_plain_insert
    (fun x => Except.ok x) (fun x => Except.ok x) _ "a</body>".toList _
    (fun _ _ h => h.symm) rfl rfl

/-- **C5.** For every response whose `Content-Type` does not begin with
`text/html`, `modifyResponse` is a no-op: the response (body, all headers,
`ContentLength`) passes through unchanged and no error is produced. -/
theorem modifyResponse_nonHtml_noop (dec : GzipDec) (comp : GzipComp) (r : Response)
    (h : strStartsWith "text/html" (headerGet r.headers "Content-Type") = false) :
    modifyResponse dec comp r = (r, none) := by
  unfold modifyResponse
  by_cases hskip : headerGet r.headers "templ-skip-modify" = "true"
  · rw [if_pos hskip]
  · rw [if_neg hskip, if_pos h]

/-- Witness for C5 at `Content-Type: application/json`. -/
theorem modifyResponse_nonHtml_noop_witness :
    modifyResponse (fun x => Except.ok x) (fun x => Except.ok x)
        { status := 200, headers := [("Content-Type", "application/json")],
          body := "x</body>".toList, contentLength := 8 } =
      ({ status := 200, headers := [("Content-Type", "application/json")],
          body := "x</body>".toList, contentLength := 8 }, none) :=
  modifyResponse_nonHtml_noop _ _ _ (by decide)

/-- **C7.** Whenever the rewrite reports an error (which can only come from
the gzip decompression/recompression oracles), the response is returned
with every header and body byte as it was: no half-modified response is
produced. -/
theorem modifyResponse_error_leaves_response_unmodified (dec : GzipDec) (comp : GzipComp)
    (r : Response) (e : String)
    (h : (modifyResponse dec comp r).2 = some e) :
    (modifyResponse dec comp r).1 = r := by
  unfold modifyResponse at h ⊢
  by_cases hskip : headerGet r.headers "templ-skip-modify" = "true"
  · rw [if_pos hskip]
  · rw [if_neg hskip] at h ⊢
    by_cases hct : strStartsWith "text/html" (headerGet r.headers "Content-Type") = false
    · rw [if_pos hct]
    · rw [if_neg hct] at h ⊢
      by_cases henc : headerGet r.headers "Content-Encoding" = "gzip"
      · rw [if_pos henc] at h ⊢
        unfold updateGzipResponse at h ⊢
        cases hdec : dec r.body with
        | error e' => rfl
        | ok plain =>
          dsimp only at h ⊢
          cases hcomp : comp (insertScriptTagIntoBody plain) with
          | error e' => rfl
          | ok buf => simp [hdec, hcomp] at h
      · rw [if_neg henc] at h
        simp [updatePlainResponse] at h

/-- Witness for C7: a failing decompressor on a gzip-tagged HTML response. -/
theorem modifyResponse_error_leaves_response_unmodified_witness :
    (modifyResponse (fun _ => Except.error "gzip: invalid header") (fun x => Except.ok x)
        { status := 200,
          headers := [("Content-Type", "text/html"), ("Content-Encoding", "gzip")],
          body := "a</body>".toList, contentLength := 8 }).1 =
      { status := 200,
        headers := [("Content-Type", "text/html"), ("Content-Encoding", "gzip")],
        body := "a</body>".toList, contentLength := 8 } :=
  modifyResponse_error_leaves_response_unmodified _ _ _ "gzip: invalid header" (by decide)

/-- Shared routing fact: an untagged HTML response whose
`Content-Encoding` is not exactly `"gzip"` goes through
`updatePlainResponse`. -/
lemma modifyResponse_plain_path (dec : GzipDec) (comp : GzipComp) (r : Response)
    (hskip : headerGet r.headers "templ-skip-modify" ≠ "true")
    (hhtml : strStartsWith "text/html" (headerGet r.headers "Content-Type") = true)
    (henc : headerGet r.headers "Content-Encoding" ≠ "gzip") :
    modifyResponse dec comp r = updatePlainResponse r := by
  unfold modifyResponse
  rw [if_neg hskip, if_neg (by simp [hhtml]), if_neg henc]

/-- **C9.** For every HTML response not tagged to skip whose
`Content-Encoding` differs from the exact string `"gzip"` (including
`"br"`, `"deflate"`, `"Gzip"`, or empty), `modifyResponse` takes the plain
path: the replacement is applied directly to the raw body bytes, no
decompression happens (the gzip oracles are not consulted), and
`Content-Length` is overwritten with the new raw length. -/
theorem modifyResponse_nonGzip_encoding_plain (dec : GzipDec) (comp : GzipComp)
    (r : Response)
    (hskip : headerGet r.headers "templ-skip-modify" ≠ "true")
    (hhtml : strStartsWith "text/html" (headerGet r.headers "Content-Type") = true)
    (henc : headerGet r.headers "Content-Encoding" ≠ "gzip") :
    modifyResponse dec comp r =
      ({ r with
          body := insertScriptTagIntoBody r.body
          contentLength := Int.ofNat (insertScriptTagIntoBody r.body).length
          headers := headerSet r.headers "Content-Length"
            (toString (insertScriptTagIntoBody r.body).length) },
        none) := by
  rw [modifyResponse_plain_path dec comp r hskip hhtml henc]
  rfl

/-- Witness for C9 at `Content-Encoding: Gzip` (capitalised, hence not the
gzip path). -/
theorem modifyResponse_nonGzip_encoding_plain_witness :
    modifyResponse (fun x => Except.ok x) (fun x => Except.ok x)
        { status := 200,
          headers := [("Content-Type", "text/html"), ("Content-Encoding", "Gzip")],
          body := "a</body>".toList, contentLength := 8 } =
      ({ status := 200,
          headers := headerSet
            [("Content-Type", "text/html"), ("Content-Encoding", "Gzip")]
            "Content-Length" (toString (insertScriptTagIntoBody "a</body>".toList).length),
          body := insertScriptTagIntoBody "a</body>".toList,
          contentLength := Int.ofNat (insertScriptTagIntoBody "a</body>".toList).length },
        none) :=
  modifyResponse_nonGzip_encoding_plain _ _ _ (by decide) (by decide) (by decide)

/-- **C10.** `NotifyProxy` returns no error exactly when request
construction and the network exchange both succeed; the response object —
in particular its HTTP status code — is never inspected. -/
theorem NotifyProxy_error_only_from_build_or_exchange (host : String) (port : Int)
    (newRequest : String → Except String Request)
    (doRequest : Request → Except String Response) :
    NotifyProxy host port newRequest doRequest = none ↔
      ∃ req resp,
        newRequest ("http://" ++ host ++ ":" ++ toString port ++ "/_templ/reload/events") =
          .ok req ∧ doRequest req = .ok resp := by
  unfold NotifyProxy
  cases hreq : newRequest ("http://" ++ host ++ ":" ++ toString port ++ "/_templ/reload/events") with
  | error e => simp [hreq]
  | ok req =>
    cases hdo : doRequest req with
    | error e => simp [hreq, hdo]
    | ok resp => simp [hreq, hdo]

/-- Shared success-run lemma on `RoundTrip` itself: failures on the first
`N - 1` attempts, success on attempt `N`. -/
lemma roundTrip_run_ok (rt : RoundTripper) (transport : Transport) (r : Request)
    (resp : Response) (N : Nat) (h1 : 1 ≤ N) (hmax : N ≤ rt.maxRetries)
    (hfail : ∀ k, k < N - 1 → ∃ e, transport k (cloneWithBody r r.body) = .error e)
    (hsucc : transport (N - 1) (cloneWithBody r r.body) = .ok resp) :
    RoundTrip rt transport r =
      ⟨.ok (setShouldSkipResponseModificationHeader r resp),
       sleepRange rt 0 (N - 1),
       List.replicate N (cloneWithBody r r.body)⟩ := by
  unfold RoundTrip
  have h := roundTripAux_run_ok rt transport r r.body resp (N - 1) rt.maxRetries 0 0 []
    (by omega) (by simpa using hfail) (by simpa using hsucc)
  rw [h]
  simp [show N - 1 + 1 = N by omega]

/-- **C2 (amended).** If the transport fails with a transport-level error
on the first `N - 1` attempts and returns a response object — any HTTP
status code — on attempt `N ≤ maxAttempts`, then `RoundTrip` returns that
response (tagged by the skip-marker rule), makes exactly `N` attempts, and
the total time slept is
`sum over i in 0..N-2 of initialDelay * floor(backoffExponent^i)`:
Go truncates `math.Pow(backoffExponent, i)` to a whole `time.Duration`
before multiplying, so the floored power, not the exact power, governs
each delay. -/
theorem roundTrip_retries_then_returns_response
    (rt : RoundTripper) (transport : Transport) (r : Request) (resp : Response)
    (N : Nat) (h1 : 1 ≤ N) (hmax : N ≤ rt.maxRetries)
    (hfail : ∀ k, k < N - 1 → ∃ e, transport k (cloneWithBody r r.body) = .error e)
    (hsucc : transport (N - 1) (cloneWithBody r r.body) = .ok resp) :
    RoundTrip rt transport r =
      ⟨.ok (setShouldSkipResponseModificationHeader r resp),
       sleepRange rt 0 (N - 1),
       List.replicate N (cloneWithBody r r.body)⟩ :=
  roundTrip_run_ok rt transport r resp N h1 hmax hfail hsucc

/-- Witness for the amended C2 at `N = 1`, with an HTTP 500 response:
returned immediately, one attempt, no sleeping. -/
theorem roundTrip_retries_then_returns_response_witness :
    RoundTrip defaultRoundTripper
        (fun _ _ => Except.ok { status := 500, headers := [], body := [], contentLength := 0 })
        { headers := [], body := none } =
      ⟨.ok (setShouldSkipResponseModificationHeader { headers := [], body := none }
          { status := 500, headers := [], body := [], contentLength := 0 }),
       sleepRange defaultRoundTripper 0 0,
       List.replicate 1 (cloneWithBody { headers := [], body := none } none)⟩ :=
  roundTrip_retries_then_returns_response defaultRoundTripper
    (fun _ _ => Except.ok { status := 500, headers := [], body := [], contentLength := 0 })
    { headers := [], body := none }
    { status := 500, headers := [], body := [], contentLength := 0 }
    1 (by omega) (by decide) (fun k hk => absurd hk (by omega)) rfl

lemma sleepNs_default_zero : sleepNs defaultRoundTripper 0 = 100000000 := by
  simp [sleepNs, defaultRoundTripper]

lemma sleepNs_default_one : sleepNs defaultRoundTripper 1 = 100000000 := by
  have hf : ⌊(3 / 2 : ℚ)⌋ = 1 := by
    rw [Int.floor_eq_iff]
    norm_num
  simp [sleepNs, defaultRoundTripper, hf]

/-- **C2 counterexample.** With the configured constants (10 attempts,
100ms initial delay, exponent 1.5) and a transport failing on attempts 0
and 1 then succeeding on attempt `N = 3`, `RoundTrip` sleeps
100ms + 100ms = 200000000ns in total, because
`time.Duration(math.Pow(1.5, 1))` truncates to 1; the claim's lower bound
`sum(initialDelay * backoffExponent^i, i = 0..1) = 250000000ns` is
therefore not met. -/
theorem roundTrip_sleep_bound_counterexample :
    (RoundTrip defaultRoundTripper
        (fun k _ => if k < 2 then Except.error "connection refused"
          else Except.ok { status := 200, headers := [], body := [], contentLength := 0 })
        { headers := [], body := none }).slept = 200000000 ∧
      ¬ ((100000000 : ℚ) * ((3 / 2 : ℚ) ^ 0 + (3 / 2 : ℚ) ^ 1) ≤ (200000000 : ℚ)) := by
  constructor
  · have h := roundTrip_run_ok defaultRoundTripper
      (fun k _ => if k < 2 then Except.error "connection refused"
        else Except.ok { status := 200, headers := [], body := [], contentLength := 0 })
      { headers := [], body := none }
      { status := 200, headers := [], body := [], contentLength := 0 }
      3 (by omega) (by decide)
      (fun k hk => ⟨"connection refused", by
        have hk2 : k < 2 := by omega
        simp [hk2]⟩)
      (by norm_num)
    rw [h]
    show sleepRange defaultRoundTripper 0 (3 - 1) = 200000000
    norm_num [sleepRange, sleepNs_default_zero, sleepNs_default_one]
  · norm_num

/-- **C3.** If the network transport fails with a transport-level error on
every attempt, `RoundTrip` returns the distinct `max retries reached`
error — an error value carrying no response object — after exactly
`maxRetries` attempts. -/
theorem roundTrip_exhaustion_returns_max_retries_error
    (rt : RoundTripper) (transport : Transport) (r : Request)
    (hfail : ∀ k req, ∃ e, transport k req = .error e) :
    (RoundTrip rt transport r).result = .error "max retries reached" ∧
      (RoundTrip rt transport r).sent.length = rt.maxRetries := by
  unfold RoundTrip
  rw [roundTripAux_all_fail rt transport r r.body hfail rt.maxRetries 0 0 []]
  simp

/-- Witness for C3: a transport that always refuses the connection. -/
theorem roundTrip_exhaustion_returns_max_retries_error_witness :
    (RoundTrip defaultRoundTripper (fun _ _ => Except.error "connection refused")
        { headers := [], body := none }).result = .error "max retries reached" ∧
      (RoundTrip defaultRoundTripper (fun _ _ => Except.error "connection refused")
        { headers := [], body := none }).sent.length = defaultRoundTripper.maxRetries :=
  roundTrip_exhaustion_returns_max_retries_error defaultRoundTripper
    (fun _ _ => Except.error "connection refused") { headers := [], body := none }
    (fun _ _ => ⟨"connection refused", rfl⟩)

/-- **C6.** Every request handed to the network transport — on the first
attempt and on every retry — is the clone of the original request carrying
exactly the buffered body bytes: the same byte sequence on every attempt,
and no attached body when the original body was nil/absent
(`q.body = r.body` in both cases). -/
theorem roundTrip_replays_buffered_body (rt : RoundTripper) (transport : Transport)
    (r : Request) (q : Request) (hq : q ∈ (RoundTrip rt transport r).sent) :
    q = cloneWithBody r r.body ∧ q.body = r.body := by
  have h := roundTripAux_sent_mem rt transport r r.body rt.maxRetries 0 0 [] q hq
  rcases h with hmem | heq
  · exact absurd hmem (List.not_mem_nil q)
  · exact ⟨heq, by rw [heq, cloneWithBody_self_body]⟩

/-- Witness for C6: a one-attempt run whose only sent request carries the
buffered byte `x`. -/
theorem roundTrip_replays_buffered_body_witness :
    cloneWithBody { headers := [], body := some ['x'] } (some ['x']) =
        cloneWithBody { headers := [], body := some ['x'] }
          ({ headers := [], body := some ['x'] } : Request).body ∧
      (cloneWithBody { headers := [], body := some ['x'] } (some ['x'])).body =
        ({ headers := [], body := some ['x'] } : Request).body :=
  roundTrip_replays_buffered_body defaultRoundTripper
    (fun _ _ => Except.ok { status := 200, headers := [], body := [], contentLength := 0 })
    { headers := [], body := some ['x'] }
    (cloneWithBody { headers := [], body := some ['x'] } (some ['x']))
    (by decide)

/-- **C8.** For a request carrying `HX-Request: true`, any successfully
returned response is tagged `templ-skip-modify: true` and `modifyResponse`
then leaves it untouched.  For a request without that marker the
transport hands back the upstream response untagged, and on an HTML
response (not already tagged, encoding not gzip) whose body contains the
closing tag, `modifyResponse` injects the script markup before each
closing-tag occurrence. -/
theorem roundTrip_hx_skip_and_nonHx_inject (rt : RoundTripper) (transport : Transport)
    (r : Request) (resp' : Response)
    (hok : (RoundTrip rt transport r).result = .ok resp') :
    (headerGet r.headers "HX-Request" = "true" →
      headerGet resp'.headers "templ-skip-modify" = "true" ∧
      ∀ dec comp, modifyResponse dec comp resp' = (resp', none)) ∧
    (headerGet r.headers "HX-Request" ≠ "true" →
      (∃ k resp, transport k (cloneWithBody r r.body) = .ok resp ∧ resp' = resp) ∧
      ∀ (dec : GzipDec) (comp : GzipComp) (parts : List (List Char)),
        headerGet resp'.headers "templ-skip-modify" ≠ "true" →
        strStartsWith "text/html" (headerGet resp'.headers "Content-Type") = true →
        headerGet resp'.headers "Content-Encoding" ≠ "gzip" →
        (∀ p ∈ parts, occursIn closingBodyTag p = false) →
        resp'.body = joinWith closingBodyTag parts →
        (modifyResponse dec comp resp').1.body =
          joinWith (scriptTag ++ closingBodyTag) parts) := by
  obtain ⟨k, resp, htr, hshape⟩ :=
    roundTripAux_ok_shape rt transport r r.body rt.maxRetries 0 0 [] resp' hok
  constructor
  · intro hx
    have htag : resp'.headers = headerSet resp.headers "templ-skip-modify" "true" := by
      rw [hshape]
      simp [setShouldSkipResponseModificationHeader, hx]
    have hget : headerGet resp'.headers "templ-skip-modify" = "true" := by
      rw [htag]
      exact headerGet_headerSet_self _ _ _
    refine ⟨hget, fun dec comp => ?_⟩
    unfold modifyResponse
    rw [if_pos hget]
  · intro hx
    have huntag : resp' = resp := by
      rw [hshape]
      simp [setShouldSkipResponseModificationHeader, hx]
    refine ⟨⟨k, resp, htr, huntag⟩, ?_⟩
    intro dec comp parts hskip hhtml henc hfree hbody
    rw [modifyResponse_plain_path dec comp resp' hskip hhtml henc]
    show insertScriptTagIntoBody resp'.body = _
    rw [hbody]
    exact stringsReplaceAll_joinWith closingBodyTag (scriptTag ++ closingBodyTag)
      closingBodyTag_ne_nil closingBodyTag_borderFree parts hfree

/-- Witness for C8: an `HX-Request: true` request; the returned response is
tagged and `modifyResponse` leaves it unchanged. -/
theorem roundTrip_hx_skip_and_nonHx_inject_witness :
    headerGet (setShouldSkipResponseModificationHeader
        { headers := [("HX-Request", "true")], body := none }
        { status := 200, headers := [("Content-Type", "text/html")],
          body := "a</body>".toList, contentLength := 8 }).headers
      "templ-skip-modify" = "true" ∧
      modifyResponse (fun x => Except.ok x) (fun x => Except.ok x)
          (setShouldSkipResponseModificationHeader
            { headers := [("HX-Request", "true")], body := none }
            { status := 200, headers := [("Content-Type", "text/html")],
              body := "a</body>".toList, contentLength := 8 }) =
        (setShouldSkipResponseModificationHeader
            { headers := [("HX-Request", "true")], body := none }
            { status := 200, headers := [("Content-Type", "text/html")],
              body := "a</body>".toList, contentLength := 8 },
          none) := by
  have h := (roundTrip_hx_skip_and_nonHx_inject defaultRoundTripper
    (fun _ _ => Except.ok
      { status := 200, headers := [("Content-Type", "text/html")],
        body := "a</body>".toList, contentLength := 8 })
    { headers := [("HX-Request", "true")], body := none }
    (setShouldSkipResponseModificationHeader
      { headers := [("HX-Request", "true")], body := none }
      { status := 200, headers := [("Content-Type", "text/html")],
        body := "a</body>".toList, contentLength := 8 })
    rfl).1 (by decide)
  exact ⟨h.1, h.2 (fun x => Except.ok x) (fun x => Except.ok x)⟩

end TemplProxy
